import Mathlib

/-!
Verification development for the `batch-fetch` request-coalescing coordinator
(`src/index.ts`, two near-duplicate source variants).

The model is a shallow embedding of the module's single-signature state
machine: the four process-wide registries (`requestPayload`, `requestCounter`,
`requestDebounce`, `requestSignals`), the per-caller promise with its window
event listeners, the debounce timers, the shared `AbortController`s and the
issued `fetch` calls.  Events (a `batchFetch` call, a timer firing, a fetch
settling, a caller's abort signal firing) are applied by an explicit `step`
function; traces are run with `List.foldl`.

The two source variants are captured by a `Variant` record:
the first (500ms) variant lets a call whose signature already has a
dispatched fetch bypass coalescing (`lateBypass`), and increments the
`aborted` counter; the second (1000ms) variant throws
`Request already dispatched` for such calls and assigns `aborted = 1`
(`abortAssign`).
-/

namespace BatchFetch

/-- `RequestInit` minus `signal`: the request options that take part in the
batch signature (`Omit<RequestInit, 'signal'>`). -/
structure OtherOpts where
  method : String
  body : String
deriving DecidableEq, Repr

/-- `RequestInit` as received by `batchFetch`: options plus an optional abort
signal.  A signal is identified by a numeric id. -/
structure Options where
  method : String
  body : String
  signal : Option Nat
deriving DecidableEq, Repr

/-- `const { signal, ...otherOptions } = options` (index.ts). -/
def stripSignal (o : Options) : OtherOpts := ⟨o.method, o.body⟩

/-- Model of the external deterministic structural hash (`object-hash`),
applied to the record `{ url, otherOptions }`: a concrete deterministic
encoding of its input. -/
def hashModel (url : String) (o : OtherOpts) : String :=
  url ++ "|" ++ o.method ++ "|" ++ o.body

/-- `const batchId = hash({ url, otherOptions })` after the signal was
destructured away (index.ts `batchFetch`). -/
def batchIdOf (url : String) (o : Options) : String := hashModel url (stripSignal o)

/-- Entry of the `requestPayload` registry. -/
structure RequestPayload where
  url : String
  options : OtherOpts
deriving DecidableEq, Repr

/-- Entry of the `requestCounter` registry. -/
structure RequestCounter where
  registered : Nat
  aborted : Nat
  processed : Nat
deriving DecidableEq, Repr

/-- The keys of a `RequestCounter` entry. -/
inductive CounterItem
  | registered
  | aborted
  | processed
deriving DecidableEq, Repr

def RequestCounter.get : RequestCounter → CounterItem → Nat
  | c, .registered => c.registered
  | c, .aborted => c.aborted
  | c, .processed => c.processed

def RequestCounter.incr : RequestCounter → CounterItem → RequestCounter
  | c, .registered => { c with registered := c.registered + 1 }
  | c, .aborted => { c with aborted := c.aborted + 1 }
  | c, .processed => { c with processed := c.processed + 1 }

/-- The registries are JS `Record<string, _>` objects: total maps from keys to
possibly-missing entries. -/
def emptyMap {α : Type} : String → Option α := fun _ => none

/-- Pointwise update of a registry (JS property assignment / `delete`). -/
def upd {α : Type} (m : String → Option α) (k : String) (v : Option α) :
    String → Option α :=
  fun x => if x = k then v else m x

/-- `incrementRequestCounter` (first variant; the second variant inlines the
same statement): `(requestCounter[batchId] as RequestCounter)[itemType] += 1`.
The result is `none` when `requestCounter[batchId]` is `undefined`, modelling
the `TypeError` the statement then throws at runtime. -/
def incrementRequestCounter (m : String → Option RequestCounter) (batchId : String)
    (itemType : CounterItem) : Option (String → Option RequestCounter) :=
  match m batchId with
  | none => none
  | some c => some (upd m batchId (some (c.incr itemType)))

/-- `isRequestCounterMax`: false when the entry is missing or `registered` is
falsy, else compares `registered` with the given counter.  (The second variant
inlines the comparison without the falsy guard; the difference is unreachable
because every existing entry has `registered ≥ 1`.) -/
def isRequestCounterMax (m : String → Option RequestCounter) (batchId : String)
    (itemType : CounterItem) : Bool :=
  match m batchId with
  | none => false
  | some c => if c.registered = 0 then false else decide (c.registered = c.get itemType)

/-- A fetch `Response`, identified by its payload. -/
structure ResponseVal where
  body : String
deriving DecidableEq, Repr

/-- `response.clone()`: an independently consumable copy with the same content. -/
def ResponseVal.clone (r : ResponseVal) : ResponseVal := ⟨r.body⟩

/-- A JS error value; `name` is what the dispatcher's catch branch inspects. -/
structure ErrorVal where
  name : String
  message : String
deriving DecidableEq, Repr

/-- The state of one caller's promise.  JS promises settle at most once:
`resolve`/`reject` after settlement are no-ops. -/
inductive PromiseState
  | pending
  | resolved (r : ResponseVal)
  | rejected (e : ErrorVal)
deriving DecidableEq, Repr

def PromiseState.resolveWith : PromiseState → ResponseVal → PromiseState
  | .pending, r => .resolved r
  | p, _ => p

def PromiseState.rejectWith : PromiseState → ErrorVal → PromiseState
  | .pending, e => .rejected e
  | p, _ => p

/-- How a `batchFetch` call joined the system. -/
inductive CallerMode
  | batched (batchId : String)
  | direct
  | threwSync (e : ErrorVal)
deriving DecidableEq, Repr

/-- One `batchFetch` call: its join mode, its own abort signal (if any), the
attachment state of its two window event listeners and of its `abort`
listener (registered `once: true`), and its promise. -/
structure Caller where
  mode : CallerMode
  signal : Option Nat
  thenAttached : Bool
  catchAttached : Bool
  abortArmed : Bool
  promise : PromiseState
deriving DecidableEq, Repr

inductive TimerStatus
  | active
  | cancelled
  | fired
deriving DecidableEq, Repr

/-- One `setTimeout` handle created by `debounceRequest`. -/
structure Timer where
  batchId : String
  status : TimerStatus
deriving DecidableEq, Repr

/-- Whether a `fetch` was issued by `dispatchRequest` for a batch (with the
batch's shared controller) or directly by the first variant's late-join
bypass for one caller. -/
inductive FetchMode
  | batch (batchId : String) (ctl : Nat)
  | directFor (caller : Nat)
deriving DecidableEq, Repr

/-- One issued `fetch` call. `sig` is the per-call signal passed for a bypass
fetch; a batch fetch uses the shared controller referenced in its mode. -/
structure FetchCall where
  url : String
  opts : Option OtherOpts
  sig : Option Nat
  mode : FetchMode
  settled : Bool
deriving DecidableEq, Repr

/-- Ghost event log recording the observable actions of the coordinator. -/
inductive LogEntry
  | fetchCalled (fid : Nat)
  | thenEvent (batchId : String)
  | catchEvent (batchId : String)
  | processedInc (caller : Nat)
  | abortedInc (caller : Nat)
  | resolveCalled (caller : Nat)
  | rejectCalled (caller : Nat)
  | typeErrorThrown (caller : Nat)
  | timerCleared (batchId : String)
  | controllerAborted (ctl : Nat)
  | unregistered (batchId : String)
deriving DecidableEq, Repr

/-- The whole module state: the four registries, the callers in listener
registration order, the timers and shared abort controllers by index, the
issued fetches, and the ghost log. -/
@[ext]
structure St where
  requestPayload : String → Option RequestPayload
  requestCounter : String → Option RequestCounter
  requestDebounce : String → Option Nat
  requestSignals : String → Option Nat
  callers : List Caller
  timers : List Timer
  controllers : List Bool
  fetches : List FetchCall
  log : List LogEntry

def initSt : St :=
  ⟨emptyMap, emptyMap, emptyMap, emptyMap, [], [], [], [], []⟩

/-- The points where the two source variants differ. -/
structure Variant where
  lateBypass : Bool
  abortAssign : Bool
deriving DecidableEq, Repr

/-- First source variant: 500ms window, a call whose signature already
dispatched bypasses coalescing, abort handler increments `aborted`. -/
def variantA : Variant := ⟨true, false⟩

/-- Second source variant: 1000ms window, a call whose signature already
dispatched throws `Request already dispatched`, abort handler assigns
`aborted = 1`. -/
def variantB : Variant := ⟨false, true⟩

/-- `unegisterRequest`: delete all four registry entries.  Note it does not
clear any pending timeout and does not abort the controller. -/
def unegisterRequest (s : St) (batchId : String) : St :=
  { s with
    requestPayload := upd s.requestPayload batchId none
    requestCounter := upd s.requestCounter batchId none
    requestDebounce := upd s.requestDebounce batchId none
    requestSignals := upd s.requestSignals batchId none
    log := s.log ++ [.unregistered batchId] }

/-- `clearTimeout` on a stored handle: cancels the timer iff it is still armed. -/
def cancelTimer (ts : List Timer) (tid : Nat) : List Timer :=
  match ts[tid]? with
  | some t => if t.status = .active then ts.set tid { t with status := .cancelled } else ts
  | none => ts

/-- `dispatchRequest`: create the batch's shared `AbortController`, store it in
`requestSignals`, and issue `fetch(requestPayload?.[batchId]?.url ?? '', {...options, signal})`. -/
def dispatchRequest (s : St) (batchId : String) : St :=
  let ctl := s.controllers.length
  let fid := s.fetches.length
  { s with
    controllers := s.controllers ++ [false]
    requestSignals := upd s.requestSignals batchId (some ctl)
    fetches := s.fetches ++
      [⟨((s.requestPayload batchId).map RequestPayload.url).getD "",
        (s.requestPayload batchId).map RequestPayload.options,
        none, .batch batchId ctl, false⟩]
    log := s.log ++ [.fetchCalled fid] }

/-- `debounceRequest`: clear any pending timer for the signature and arm a
fresh one that will invoke `dispatchRequest`. -/
def debounceRequest (s : St) (batchId : String) : St :=
  let s1 :=
    match s.requestDebounce batchId with
    | some tid => { s with timers := cancelTimer s.timers tid }
    | none => s
  { s1 with
    timers := s1.timers ++ [⟨batchId, .active⟩]
    requestDebounce := upd s1.requestDebounce batchId (some s1.timers.length) }

/-- `registerRequest`: create the payload and counter entries if missing,
increment `registered`, re-arm the debounce timer.  (The increment cannot
throw here because the counter entry was just ensured.) -/
def registerRequest (s : St) (batchId url : String) (options : OtherOpts) : St :=
  let s1 :=
    if (s.requestPayload batchId).isNone then
      { s with requestPayload := upd s.requestPayload batchId (some ⟨url, options⟩) }
    else s
  let s2 :=
    if (s1.requestCounter batchId).isNone then
      { s1 with requestCounter := upd s1.requestCounter batchId (some ⟨0, 0, 0⟩) }
    else s1
  let s3 :=
    match incrementRequestCounter s2.requestCounter batchId .registered with
    | some m => { s2 with requestCounter := m }
    | none => s2
  debounceRequest s3 batchId

/-- A caller freshly joined to a batch: both window listeners attached, the
abort listener armed iff the caller supplied a signal, promise pending. -/
def freshCaller (batchId : String) (sig : Option Nat) : Caller :=
  ⟨.batched batchId, sig, true, true, sig.isSome, .pending⟩

/-- The synchronous part of `batchFetch`: strip the signal, compute the batch
id, apply the variant's late-join policy if this signature already dispatched
(`requestSignals` has the key), otherwise register and attach the listeners. -/
def batchFetchCall (v : Variant) (s : St) (url : String) (options : Options) : St :=
  let otherOptions := stripSignal options
  let batchId := hashModel url otherOptions
  if (s.requestSignals batchId).isSome then
    if v.lateBypass then
      let ci := s.callers.length
      let fid := s.fetches.length
      { s with
        callers := s.callers ++ [⟨.direct, options.signal, false, false, false, .pending⟩]
        fetches := s.fetches ++ [⟨url, some otherOptions, options.signal, .directFor ci, false⟩]
        log := s.log ++ [.fetchCalled fid] }
    else
      { s with callers := s.callers ++
          [⟨.threwSync ⟨"Error", "Request already dispatched"⟩, options.signal,
            false, false, false, .pending⟩] }
  else
    let s1 := registerRequest s batchId url otherOptions
    { s1 with callers := s1.callers ++ [freshCaller batchId options.signal] }

/-- The two broadcast events `batchFetchThen` / `batchFetchCatch`. -/
inductive Delivery
  | thenD (r : ResponseVal)
  | catchD (e : ErrorVal)
deriving DecidableEq, Repr

/-- Which of a caller's two listeners the delivery addresses. -/
def Delivery.attached : Delivery → Caller → Bool
  | .thenD _, c => c.thenAttached
  | .catchD _, c => c.catchAttached

/-- `window.removeEventListener` of the handler's own listener.  The success
handler removes only `onBatchFetchThen` and the failure handler only
`onBatchFetchCatch`; the sibling listener stays attached. -/
def Delivery.detach : Delivery → Caller → Caller
  | .thenD _, c => { c with thenAttached := false }
  | .catchD _, c => { c with catchAttached := false }

/-- `resolve(response.clone())` respectively `reject(error)`. -/
def Delivery.settle : Delivery → PromiseState → PromiseState
  | .thenD r, p => p.resolveWith r.clone
  | .catchD e, p => p.rejectWith e

def Delivery.logEntry : Delivery → Nat → LogEntry
  | .thenD _, i => .resolveCalled i
  | .catchD _, i => .rejectCalled i

/-- One caller's `onBatchFetchThen` / `onBatchFetchCatch` listener body, run
while the event for `batchId` is dispatched.  The two closures in the source
are identical up to which listener they remove and whether they resolve or
reject; both increment `processed` (throwing a `TypeError` if the counter
entry is gone, which aborts the rest of the handler) and unregister the batch
when `processed` reaches `registered`. -/
def runHandler (d : Delivery) (batchId : String) (i : Nat) (s : St) : St :=
  match s.callers[i]? with
  | none => s
  | some c =>
    match c.mode with
    | .batched b =>
      if d.attached c = true ∧ b = batchId then
        let c1 := d.detach c
        let s1 := { s with callers := s.callers.set i c1 }
        match incrementRequestCounter s1.requestCounter batchId .processed with
        | none => { s1 with log := s1.log ++ [.typeErrorThrown i] }
        | some m =>
          let s2 := { s1 with requestCounter := m, log := s1.log ++ [.processedInc i] }
          let s3 := if isRequestCounterMax s2.requestCounter batchId .processed then
                      unegisterRequest s2 batchId
                    else s2
          { s3 with
            callers := s3.callers.set i { c1 with promise := d.settle c1.promise }
            log := s3.log ++ [d.logEntry i] }
      else s
    | _ => s

/-- Run the listeners of callers `i, i+1, …, i+rem-1` in registration order. -/
def broadcastFrom (d : Delivery) (batchId : String) : Nat → Nat → St → St
  | _, 0, s => s
  | i, rem + 1, s => broadcastFrom d batchId (i + 1) rem (runHandler d batchId i s)

/-- `window.dispatchEvent` of a batch event: every registered listener runs
synchronously in registration order. -/
def dispatchEventStep (d : Delivery) (batchId : String) (s : St) : St :=
  broadcastFrom d batchId 0 s.callers.length s

/-- The outcome the environment chooses for a pending `fetch`. -/
inductive FetchOutcome
  | success (r : ResponseVal)
  | failure (e : ErrorVal)
deriving DecidableEq, Repr

def FetchOutcome.isAbort : FetchOutcome → Bool
  | .failure e => decide (e.name = "AbortError")
  | .success _ => false

/-- The promise state a coalesced caller ends in when the batch fetch settles
with the given outcome. -/
def deliveredPromise : FetchOutcome → PromiseState
  | .success r => .resolved r.clone
  | .failure e => .rejected e

/-- Settlement of an issued `fetch`.  For a batch fetch this runs the
`.then`/`.catch` attached in `dispatchRequest`: success dispatches
`batchFetchThen`; failure dispatches `batchFetchCatch` only when the error is
not an `AbortError` (the abort error is already handled inside `batchFetch`).
A bypass fetch settles its caller's promise directly. -/
def fetchSettleStep (s : St) (fid : Nat) (out : FetchOutcome) : St :=
  match s.fetches[fid]? with
  | none => s
  | some fc =>
    if fc.settled then s
    else
      let s1 := { s with fetches := s.fetches.set fid { fc with settled := true } }
      match fc.mode with
      | .batch batchId _ =>
        match out with
        | .success r =>
          dispatchEventStep (.thenD r) batchId { s1 with log := s1.log ++ [.thenEvent batchId] }
        | .failure e =>
          if e.name = "AbortError" then s1
          else dispatchEventStep (.catchD e) batchId
            { s1 with log := s1.log ++ [.catchEvent batchId] }
      | .directFor ci =>
        match s1.callers[ci]? with
        | none => s1
        | some c =>
          match out with
          | .success r =>
            { s1 with callers := s1.callers.set ci { c with promise := c.promise.resolveWith r } }
          | .failure e =>
            { s1 with callers := s1.callers.set ci { c with promise := c.promise.rejectWith e } }

/-- The listener installed on a caller's own abort signal (`once: true`):
remove both window listeners, bump the `aborted` counter (increment in the
first variant, the second variant's slip assigns `= 1`; both dereference the
possibly-missing counter entry and throw a `TypeError` when it is gone,
aborting the handler), on all-aborted clear the debounce timer, abort the
shared controller and unregister, and finally reject this caller's promise
with the signal's reason. -/
def abortFireStep (v : Variant) (s : St) (i : Nat) (reason : ErrorVal) : St :=
  match s.callers[i]? with
  | none => s
  | some c =>
    match c.mode with
    | .batched batchId =>
      if c.abortArmed then
        let c1 := { c with abortArmed := false, thenAttached := false, catchAttached := false }
        let s1 := { s with callers := s.callers.set i c1 }
        match s1.requestCounter batchId with
        | none => { s1 with log := s1.log ++ [.typeErrorThrown i] }
        | some rc =>
          let rc1 := if v.abortAssign then { rc with aborted := 1 } else rc.incr .aborted
          let s2 := { s1 with
            requestCounter := upd s1.requestCounter batchId (some rc1)
            log := s1.log ++ [.abortedInc i] }
          let s3 :=
            if isRequestCounterMax s2.requestCounter batchId .aborted then
              let s3a :=
                match s2.requestDebounce batchId with
                | some tid => { s2 with
                    timers := cancelTimer s2.timers tid
                    log := s2.log ++ [LogEntry.timerCleared batchId] }
                | none => s2
              let s3b :=
                match s3a.requestSignals batchId with
                | some ctl => { s3a with
                    controllers := s3a.controllers.set ctl true
                    log := s3a.log ++ [LogEntry.controllerAborted ctl] }
                | none => s3a
              unegisterRequest s3b batchId
            else s2
          { s3 with
            callers := s3.callers.set i { c1 with promise := c1.promise.rejectWith reason }
            log := s3.log ++ [.rejectCalled i] }
      else s
    | _ => s

/-- A timer firing: only a still-armed timer runs `dispatchRequest`. -/
def timerFireStep (s : St) (tid : Nat) : St :=
  match s.timers[tid]? with
  | none => s
  | some t =>
    if t.status = .active then
      dispatchRequest { s with timers := s.timers.set tid { t with status := .fired } } t.batchId
    else s

/-- Scheduler events: a `batchFetch` call, a debounce timer firing, a fetch
settling, a caller's abort signal firing with its reason. -/
inductive Ev
  | call (url : String) (options : Options)
  | timerFire (tid : Nat)
  | fetchSettle (fid : Nat) (out : FetchOutcome)
  | abortFire (caller : Nat) (reason : ErrorVal)
deriving DecidableEq, Repr

def step (v : Variant) (s : St) : Ev → St
  | .call url options => batchFetchCall v s url options
  | .timerFire tid => timerFireStep s tid
  | .fetchSettle fid out => fetchSettleStep s fid out
  | .abortFire i reason => abortFireStep v s i reason

def runFrom (v : Variant) (s : St) (evs : List Ev) : St := evs.foldl (step v) s

def run (v : Variant) (evs : List Ev) : St := runFrom v initSt evs

/-- Timed model of `debounceRequest`: each join at time `t` clears the pending
timer and arms a fresh one for the full quiet window `w`; the armed timer
fires at its deadline unless a further join re-arms it first.  `fireTime w ts`
is the instant dispatch fires for joins at times `ts`. -/
def fireTime (w : Nat) : List Nat → Option Nat
  | [] => none
  | [t] => some (t + w)
  | t :: t2 :: rest => if t2 < t + w then fireTime w (t2 :: rest) else some (t + w)

/-! Scenario states used by the general coalescing and cancellation theorems. -/

/-- `n` identical `batchFetch` calls (same url and options up to the per-call
signal), each caller carrying its own signal. -/
def joinEvents (url m b : String) (n : Nat) : List Ev :=
  (List.range n).map (fun i => Ev.call url ⟨m, b, some i⟩)

def freshCallerI (batchId : String) (i : Nat) : Caller := freshCaller batchId (some i)

/-- A caller after its own abort fired (not the last one): listeners removed,
promise rejected with its own reason. -/
def abortedCaller (batchId : String) (i : Nat) (e : ErrorVal) : Caller :=
  ⟨.batched batchId, some i, false, false, false, .rejected e⟩

def abortLog : List Nat → List LogEntry
  | [] => []
  | i :: rest => .abortedInc i :: .rejectCalled i :: abortLog rest

/-- State after `n+1` coalesced joins for one signature, of which the callers
listed in `P` have individually cancelled (with reasons `f`), before dispatch. -/
def phaseSt (url m b : String) (n : Nat) (P : List Nat) (f : Nat → ErrorVal) : St :=
  { requestPayload := upd emptyMap (hashModel url ⟨m, b⟩) (some ⟨url, ⟨m, b⟩⟩)
    requestCounter := upd emptyMap (hashModel url ⟨m, b⟩) (some ⟨n + 1, P.length, 0⟩)
    requestDebounce := upd emptyMap (hashModel url ⟨m, b⟩) (some n)
    requestSignals := emptyMap
    callers := (List.range (n + 1)).map (fun i =>
      if i ∈ P then abortedCaller (hashModel url ⟨m, b⟩) i (f i)
      else freshCallerI (hashModel url ⟨m, b⟩) i)
    timers := List.replicate n ⟨hashModel url ⟨m, b⟩, .cancelled⟩
      ++ [⟨hashModel url ⟨m, b⟩, .active⟩]
    controllers := []
    fetches := []
    log := abortLog P }

/-- `phaseSt` after the debounce timer fired and `dispatchRequest` issued the
single batch fetch. -/
def dispatchedSt (url m b : String) (n : Nat) (P : List Nat) (f : Nat → ErrorVal) : St :=
  { requestPayload := upd emptyMap (hashModel url ⟨m, b⟩) (some ⟨url, ⟨m, b⟩⟩)
    requestCounter := upd emptyMap (hashModel url ⟨m, b⟩) (some ⟨n + 1, P.length, 0⟩)
    requestDebounce := upd emptyMap (hashModel url ⟨m, b⟩) (some n)
    requestSignals := upd emptyMap (hashModel url ⟨m, b⟩) (some 0)
    callers := (List.range (n + 1)).map (fun i =>
      if i ∈ P then abortedCaller (hashModel url ⟨m, b⟩) i (f i)
      else freshCallerI (hashModel url ⟨m, b⟩) i)
    timers := List.replicate n ⟨hashModel url ⟨m, b⟩, .cancelled⟩
      ++ [⟨hashModel url ⟨m, b⟩, .fired⟩]
    controllers := [false]
    fetches := [⟨url, some ⟨m, b⟩, none, .batch (hashModel url ⟨m, b⟩) 0, false⟩]
    log := abortLog P ++ [.fetchCalled 0] }

/-- A fresh caller after the broadcast `d` delivered to it: its own listener
removed (the sibling listener stays attached), promise settled. -/
def deliveredCaller (d : Delivery) (batchId : String) (i : Nat) : Caller :=
  match d with
  | .thenD r => ⟨.batched batchId, some i, false, true, true, .resolved r.clone⟩
  | .catchD e => ⟨.batched batchId, some i, true, false, true, .rejected e⟩

/-- How many of the callers `0, …, lo-1` are outside the cancelled set `P`
(each bumped `processed` once during the broadcast). -/
def procCount (P : List Nat) : Nat → Nat
  | 0 => 0
  | lo + 1 => procCount P lo + (if lo ∈ P then 0 else 1)

/-- The log entries appended while the broadcast delivered to callers
`0, …, lo-1` (cancelled callers are skipped). -/
def deliverLog (d : Delivery) (P : List Nat) : Nat → List LogEntry
  | 0 => []
  | lo + 1 => deliverLog d P lo
      ++ (if lo ∈ P then [] else [.processedInc lo, d.logEntry lo])

/-- `dispatchedSt` with its fetch settled, while the broadcast has delivered
to callers `0, …, lo-1`. -/
def midSt (url m b : String) (n : Nat) (P : List Nat) (f : Nat → ErrorVal)
    (d : Delivery) (entry : LogEntry) (lo : Nat) : St :=
  { requestPayload := upd emptyMap (hashModel url ⟨m, b⟩) (some ⟨url, ⟨m, b⟩⟩)
    requestCounter := upd emptyMap (hashModel url ⟨m, b⟩)
      (some ⟨n + 1, P.length, procCount P lo⟩)
    requestDebounce := upd emptyMap (hashModel url ⟨m, b⟩) (some n)
    requestSignals := upd emptyMap (hashModel url ⟨m, b⟩) (some 0)
    callers := (List.range (n + 1)).map (fun i =>
      if i ∈ P then abortedCaller (hashModel url ⟨m, b⟩) i (f i)
      else if i < lo then deliveredCaller d (hashModel url ⟨m, b⟩) i
      else freshCallerI (hashModel url ⟨m, b⟩) i)
    timers := List.replicate n ⟨hashModel url ⟨m, b⟩, .cancelled⟩
      ++ [⟨hashModel url ⟨m, b⟩, .fired⟩]
    controllers := [false]
    fetches := [⟨url, some ⟨m, b⟩, none, .batch (hashModel url ⟨m, b⟩) 0, true⟩]
    log := abortLog P ++ [.fetchCalled 0, entry] ++ deliverLog d P lo }

/-- The final state of a batch with no cancelled caller: the last delivery
reaches `processed == registered` and unregisters the signature. -/
def retiredSt (url m b : String) (n : Nat) (d : Delivery) (entry : LogEntry) : St :=
  { requestPayload := emptyMap
    requestCounter := emptyMap
    requestDebounce := emptyMap
    requestSignals := emptyMap
    callers := (List.range (n + 1)).map
      (fun i => deliveredCaller d (hashModel url ⟨m, b⟩) i)
    timers := List.replicate n ⟨hashModel url ⟨m, b⟩, .cancelled⟩
      ++ [⟨hashModel url ⟨m, b⟩, .fired⟩]
    controllers := [false]
    fetches := [⟨url, some ⟨m, b⟩, none, .batch (hashModel url ⟨m, b⟩) 0, true⟩]
    log := [.fetchCalled 0, entry] ++ deliverLog d [] n
      ++ [.processedInc n, .unregistered (hashModel url ⟨m, b⟩), d.logEntry n] }

/-! Concrete traces used by the counterexample / code-bug theorems. -/

/-- Two coalesced callers, one cancels individually, the fetch succeeds. -/
def c2Trace : List Ev :=
  [.call "u" ⟨"GET", "", some 0⟩, .call "u" ⟨"GET", "", some 1⟩,
   .abortFire 0 ⟨"AbortError", "c0"⟩, .timerFire 1, .fetchSettle 0 (.success ⟨"ok"⟩)]

/-- Two coalesced callers, both cancel before the debounce timer fires, then
the (possibly surviving) timer fires. -/
def c3TraceEarly : List Ev :=
  [.call "u" ⟨"GET", "", some 0⟩, .call "u" ⟨"GET", "", some 1⟩,
   .abortFire 0 ⟨"AbortError", "c0"⟩, .abortFire 1 ⟨"AbortError", "c1"⟩, .timerFire 1]

/-- Two coalesced callers, dispatch fires, then both cancel. -/
def c3TraceLate : List Ev :=
  [.call "u" ⟨"GET", "", some 0⟩, .call "u" ⟨"GET", "", some 1⟩, .timerFire 1,
   .abortFire 0 ⟨"AbortError", "c0"⟩, .abortFire 1 ⟨"AbortError", "c1"⟩]

/-- One caller joins and its batch dispatches; then a second identical call
arrives while the fetch is in flight (the late-join case). -/
def c5Trace : List Ev :=
  [.call "u" ⟨"GET", "", some 0⟩, .timerFire 0, .call "u" ⟨"GET", "", some 5⟩]

/-- Caller 0's batch succeeds and retires; a second batch for the same
signature is created by caller 1 and its fetch fails. -/
def c8Trace : List Ev :=
  [.call "u" ⟨"GET", "", some 0⟩, .timerFire 0, .fetchSettle 0 (.success ⟨"ok"⟩),
   .call "u" ⟨"GET", "", some 1⟩, .timerFire 1, .fetchSettle 1 (.failure ⟨"Error", "boom"⟩)]

/-- A single caller's batch runs to success and is retired; its abort listener
is still armed. -/
def c10Trace : List Ev :=
  [.call "u" ⟨"GET", "", some 0⟩, .timerFire 0, .fetchSettle 0 (.success ⟨"ok"⟩)]

/-- The retired-batch caller produced by `c10Trace`: resolved, `then` listener
removed, `catch` listener still attached, abort listener still armed. -/
def c10Caller : Caller :=
  ⟨.batched (hashModel "u" ⟨"GET", ""⟩), some 0, false, true, true, .resolved ⟨"ok"⟩⟩

/-- A single-caller batch whose dispatch has fired but whose fetch is pending. -/
def c6St : St := run variantA [.call "u" ⟨"GET", "", some 0⟩, .timerFire 0]

/-- The state after `c10Trace`: the batch fully retired. -/
def c10St : St := run variantA c10Trace

/-! ## Registry-map and list helper lemmas -/

theorem upd_same {α : Type} (m : String → Option α) (k : String) (v : Option α) :
    upd m k v k = v := by
  simp [upd]

theorem upd_upd {α : Type} (m : String → Option α) (k : String) (v w : Option α) :
    upd (upd m k v) k w = upd m k w := by
  funext x
  by_cases hx : x = k <;> simp [upd, hx]

theorem abortLog_append (P Q : List Nat) :
    abortLog (P ++ Q) = abortLog P ++ abortLog Q := by
  induction P with
  | nil => rfl
  | cons i P ih => simp [abortLog, ih]

theorem replicate_concat_getElem {α : Type} (n : Nat) (x a : α) :
    (List.replicate n x ++ [a])[n]? = some a := by
  induction n with
  | zero => rfl
  | succ k ih => simp [List.replicate_succ, ih]

theorem replicate_concat_two {α : Type} (n : Nat) (x a : α) :
    List.replicate n x ++ (x :: [a]) = List.replicate (n + 1) x ++ [a] := by
  rw [List.replicate_succ', List.append_assoc]
  rfl

theorem replicate_concat_set {α : Type} (n : Nat) (x a v : α) :
    (List.replicate n x ++ [a]).set n v = List.replicate n x ++ [v] := by
  induction n with
  | zero => rfl
  | succ k ih => simp [List.replicate_succ, ih]

theorem range_map_getElem {α : Type} (g : Nat → α) (n q : Nat) (hq : q < n) :
    ((List.range n).map g)[q]? = some (g q) := by
  simp [List.getElem?_map, List.getElem?_range hq]

theorem range_map_set {α : Type} (g : Nat → α) (n q : Nat) (v : α) (hq : q < n) :
    ((List.range n).map g).set q v
      = (List.range n).map (fun i => if i = q then v else g i) := by
  apply List.ext_getElem?
  intro j
  by_cases hj : j < n
  · by_cases hjq : j = q
    · subst hjq
      rw [List.getElem?_set_self (by simpa using hj), range_map_getElem _ _ _ hj]
      simp
    · rw [List.getElem?_set_ne (Ne.symm hjq), range_map_getElem _ _ _ hj,
        range_map_getElem _ _ _ hj]
      simp [hjq]
  · have hle : n ≤ j := Nat.le_of_not_lt hj
    rw [List.getElem?_eq_none (by simpa using hle),
      List.getElem?_eq_none (by simpa using hle)]

/-! ## The join phase: `n+1` coalesced calls build `phaseSt _ _ _ n [] _` -/

theorem step_call_phase (url m b : String) (f : Nat → ErrorVal) (n : Nat) :
    step variantA (phaseSt url m b n [] f) (Ev.call url ⟨m, b, some (n + 1)⟩)
      = phaseSt url m b (n + 1) [] f := by
  simp [step, batchFetchCall, registerRequest, debounceRequest, incrementRequestCounter,
    stripSignal, phaseSt, emptyMap, upd_same, upd_upd, cancelTimer,
    replicate_concat_getElem, replicate_concat_set, RequestCounter.incr,
    freshCallerI, freshCaller, List.range_succ]
  exact replicate_concat_two n _ _

theorem run_joinEvents (url m b : String) (f : Nat → ErrorVal) (n : Nat) :
    run variantA (joinEvents url m b (n + 1)) = phaseSt url m b n [] f := by
  induction n with
  | zero =>
    simp [run, runFrom, joinEvents, step, batchFetchCall, registerRequest,
      debounceRequest, incrementRequestCounter, stripSignal, phaseSt, initSt,
      emptyMap, upd_same, upd_upd, RequestCounter.incr, freshCallerI, freshCaller,
      cancelTimer, abortLog, List.range_succ, List.range_zero]
  | succ k ih =>
    have hsplit : joinEvents url m b (k + 2)
        = joinEvents url m b (k + 1) ++ [Ev.call url ⟨m, b, some (k + 1)⟩] := by
      simp [joinEvents, List.range_succ]
    simp only [run, runFrom] at ih ⊢
    rw [hsplit, List.foldl_append, ih]
    simpa using step_call_phase url m b f k

/-! ## The individual-cancellation phase: a strict subset of callers aborts -/

theorem step_abort_phase (url m b : String) (f : Nat → ErrorVal) (n : Nat)
    (P : List Nat) (q : Nat) (hq : q < n + 1) (hqP : q ∉ P) (hPn : P.length + 1 ≤ n) :
    step variantA (phaseSt url m b n P f) (Ev.abortFire q (f q))
      = phaseSt url m b n (P ++ [q]) f := by
  have hne : ¬ (n + 1 = P.length + 1) := by omega
  have hcong : (List.range (n + 1)).map (fun i =>
        if i = q then abortedCaller (hashModel url ⟨m, b⟩) q (f q)
        else if i ∈ P then abortedCaller (hashModel url ⟨m, b⟩) i (f i)
        else freshCallerI (hashModel url ⟨m, b⟩) i)
      = (List.range (n + 1)).map (fun i =>
        if i ∈ P ++ [q] then abortedCaller (hashModel url ⟨m, b⟩) i (f i)
        else freshCallerI (hashModel url ⟨m, b⟩) i) := by
    apply List.map_congr_left
    intro i _
    by_cases hiq : i = q
    · subst hiq
      simp [hqP]
    · simp [List.mem_append, hiq]
  simp only [step, abortFireStep, phaseSt,
    range_map_getElem (n := n + 1) (q := q) _ hq]
  rw [if_neg hqP]
  simp only [freshCallerI, freshCaller, Option.isSome_some, if_true]
  simp [upd_same, upd_upd, variantA, RequestCounter.incr, isRequestCounterMax,
    RequestCounter.get, hne, List.set_set, PromiseState.rejectWith,
    abortLog_append, abortLog, range_map_set _ _ _ _ hq, hcong,
    abortedCaller, freshCallerI, freshCaller]
  intro a ha
  by_cases haq : a = q
  · simp [haq]
  · by_cases haP : a ∈ P <;> simp [haq, haP]

theorem run_abort_phase (url m b : String) (f : Nat → ErrorVal) (n : Nat) :
    ∀ (Q P : List Nat), (P ++ Q).Nodup → (∀ i ∈ Q, i < n + 1) →
    (P ++ Q).length ≤ n →
    runFrom variantA (phaseSt url m b n P f) (Q.map (fun i => Ev.abortFire i (f i)))
      = phaseSt url m b n (P ++ Q) f := by
  intro Q
  induction Q with
  | nil =>
    intro P _ _ _
    simp [runFrom]
  | cons q Q ih =>
    intro P hnd hb hlen
    have hq : q < n + 1 := hb q (List.mem_cons_self q Q)
    have hqP : q ∉ P := by
      intro hmem
      exact (List.nodup_append.mp hnd).2.2 hmem (List.mem_cons_self q Q)
    have hPn : P.length + 1 ≤ n := by
      have h1 := hlen
      simp [List.length_append] at h1
      omega
    simp only [List.map_cons, runFrom, List.foldl_cons]
    rw [step_abort_phase url m b f n P q hq hqP hPn]
    have h2 : ((P ++ [q]) ++ Q).Nodup := by
      rw [List.append_assoc]
      simpa using hnd
    have h3 : ∀ i ∈ Q, i < n + 1 := fun i hi => hb i (List.mem_cons_of_mem q hi)
    have h4 : ((P ++ [q]) ++ Q).length ≤ n := by
      rw [List.append_assoc]
      simpa using hlen
    have h5 := ih (P ++ [q]) h2 h3 h4
    simp only [runFrom] at h5
    rw [h5, List.append_assoc]
    rfl

/-! ## Dispatch: the surviving timer fires -/

theorem step_timer_phase (url m b : String) (f : Nat → ErrorVal) (n : Nat) (P : List Nat) :
    step variantA (phaseSt url m b n P f) (Ev.timerFire n) = dispatchedSt url m b n P f := by
  simp [step, timerFireStep, phaseSt, dispatchedSt, replicate_concat_getElem,
    replicate_concat_set, dispatchRequest, upd_same, upd_upd, emptyMap]

/-! ## The fan-out broadcast -/

theorem upd_none_empty {α : Type} (k : String) :
    upd (emptyMap : String → Option α) k none = emptyMap := by
  funext x
  by_cases hx : x = k <;> simp [upd, emptyMap, hx]

theorem procCount_nil : ∀ lo, procCount [] lo = lo := by
  intro lo
  induction lo with
  | zero => rfl
  | succ k ih => simp [procCount, ih]

theorem procCount_le (P : List Nat) : ∀ lo, procCount P lo ≤ lo := by
  intro lo
  induction lo with
  | zero => exact Nat.le_refl 0
  | succ k ih =>
    by_cases h : k ∈ P
    · simp only [procCount, if_pos h]
      omega
    · simp only [procCount, if_neg h]
      omega

theorem procCount_lt (P : List Nat) (q0 : Nat) (hq0 : q0 ∈ P) :
    ∀ lo, q0 < lo → procCount P lo < lo := by
  intro lo
  induction lo with
  | zero => intro h; omega
  | succ k ih =>
    intro h
    by_cases hk : q0 < k
    · have h1 := ih hk
      by_cases hkP : k ∈ P
      · simp only [procCount, if_pos hkP]
        omega
      · simp only [procCount, if_neg hkP]
        omega
    · have hqk : q0 = k := by omega
      subst hqk
      have h2 := procCount_le P q0
      simp only [procCount, if_pos hq0]
      omega

theorem runHandler_mid (url m b : String) (n : Nat) (P : List Nat) (f : Nat → ErrorVal)
    (d : Delivery) (entry : LogEntry) (lo : Nat) (hlo : lo < n + 1)
    (hmax : procCount P (lo + 1) < n + 1) :
    runHandler d (hashModel url ⟨m, b⟩) lo (midSt url m b n P f d entry lo)
      = midSt url m b n P f d entry (lo + 1) := by
  by_cases hP : lo ∈ P
  · have hmm : midSt url m b n P f d entry lo = midSt url m b n P f d entry (lo + 1) := by
      simp only [midSt, procCount, deliverLog, hP, if_pos, Nat.add_zero, List.append_nil]
      apply St.ext <;> try rfl
      apply List.map_congr_left
      intro i hi
      by_cases hiP : i ∈ P
      · simp [hiP]
      · have hil : i ≠ lo := fun h => hiP (h ▸ hP)
        have : (i < lo) = (i < lo + 1) := by
          by_cases h2 : i < lo
          · simp [h2]; omega
          · simp [h2]; omega
        simp [hiP, this]
    have hid : runHandler d (hashModel url ⟨m, b⟩) lo (midSt url m b n P f d entry lo)
        = midSt url m b n P f d entry lo := by
      cases d <;>
        simp [runHandler, midSt, range_map_getElem _ _ _ hlo, hP, abortedCaller,
          Delivery.attached]
    rw [hid, hmm]
  · have hm1 : procCount P (lo + 1) = procCount P lo + 1 := by
      simp [procCount, hP]
    have hmax1 : ¬ (n + 1 = procCount P lo + 1) := by omega
    cases d with
    | thenD r =>
      simp only [runHandler, midSt, range_map_getElem _ _ _ hlo, hP, if_neg,
        freshCallerI, freshCaller]
      simp [Delivery.attached, Delivery.detach, Delivery.settle, Delivery.logEntry,
        incrementRequestCounter, upd_same, upd_upd, RequestCounter.incr,
        isRequestCounterMax, RequestCounter.get, hmax1, List.set_set,
        range_map_set _ _ _ _ hlo, PromiseState.resolveWith, deliveredCaller,
        abortedCaller, procCount, deliverLog, freshCallerI, freshCaller, hP]
      intro a ha
      by_cases hal : a = lo
      · subst hal
        simp [hP]
      · by_cases haP : a ∈ P
        · simp [hal, haP]
        · have h3 : (a < lo) = (a < lo + 1) := by
            by_cases h2 : a < lo
            · simp [h2]; omega
            · simp [h2]; omega
          simp [hal, haP, h3]
    | catchD e =>
      simp only [runHandler, midSt, range_map_getElem _ _ _ hlo, hP, if_neg,
        freshCallerI, freshCaller]
      simp [Delivery.attached, Delivery.detach, Delivery.settle, Delivery.logEntry,
        incrementRequestCounter, upd_same, upd_upd, RequestCounter.incr,
        isRequestCounterMax, RequestCounter.get, hmax1, List.set_set,
        range_map_set _ _ _ _ hlo, PromiseState.rejectWith, deliveredCaller,
        abortedCaller, procCount, deliverLog, freshCallerI, freshCaller, hP]
      intro a ha
      by_cases hal : a = lo
      · subst hal
        simp [hP]
      · by_cases haP : a ∈ P
        · simp [hal, haP]
        · have h3 : (a < lo) = (a < lo + 1) := by
            by_cases h2 : a < lo
            · simp [h2]; omega
            · simp [h2]; omega
          simp [hal, haP, h3]

theorem runHandler_mid_last (url m b : String) (n : Nat) (f : Nat → ErrorVal)
    (d : Delivery) (entry : LogEntry) :
    runHandler d (hashModel url ⟨m, b⟩) n (midSt url m b n [] f d entry n)
      = retiredSt url m b n d entry := by
  have hn : n < n + 1 := Nat.lt_succ_self n
  cases d with
  | thenD r =>
    simp [runHandler, midSt, range_map_getElem _ _ _ hn, freshCallerI, freshCaller,
      Delivery.attached, Delivery.detach, Delivery.settle, Delivery.logEntry,
      incrementRequestCounter, upd_same, upd_upd, RequestCounter.incr,
      isRequestCounterMax, RequestCounter.get, List.set_set,
      range_map_set _ _ _ _ hn, PromiseState.resolveWith, deliveredCaller,
      procCount_nil, unegisterRequest, upd_none_empty, retiredSt, abortLog,
      deliverLog]
    intro a ha
    by_cases hal : a = n
    · simp [hal]
    · have h2 : a < n := by omega
      simp [hal, h2]
  | catchD e =>
    simp [runHandler, midSt, range_map_getElem _ _ _ hn, freshCallerI, freshCaller,
      Delivery.attached, Delivery.detach, Delivery.settle, Delivery.logEntry,
      incrementRequestCounter, upd_same, upd_upd, RequestCounter.incr,
      isRequestCounterMax, RequestCounter.get, List.set_set,
      range_map_set _ _ _ _ hn, PromiseState.rejectWith, deliveredCaller,
      procCount_nil, unegisterRequest, upd_none_empty, retiredSt, abortLog,
      deliverLog]
    intro a ha
    by_cases hal : a = n
    · simp [hal]
    · have h2 : a < n := by omega
      simp [hal, h2]

theorem broadcastFrom_mid (url m b : String) (n : Nat) (P : List Nat)
    (f : Nat → ErrorVal) (d : Delivery) (entry : LogEntry)
    (q0 : Nat) (hq0P : q0 ∈ P) (hq0n : q0 < n + 1) :
    ∀ (rem lo : Nat), lo + rem = n + 1 →
    broadcastFrom d (hashModel url ⟨m, b⟩) lo rem (midSt url m b n P f d entry lo)
      = midSt url m b n P f d entry (n + 1) := by
  intro rem
  induction rem with
  | zero =>
    intro lo h
    have h2 : lo = n + 1 := by omega
    subst h2
    rfl
  | succ k ih =>
    intro lo h
    have hlo : lo < n + 1 := by omega
    have hmax : procCount P (lo + 1) < n + 1 := by
      by_cases hcase : q0 < lo + 1
      · have h1 := procCount_lt P q0 hq0P (lo + 1) hcase
        omega
      · have h2 := procCount_le P (lo + 1)
        omega
    simp only [broadcastFrom]
    rw [runHandler_mid url m b n P f d entry lo hlo hmax]
    exact ih (lo + 1) (by omega)

theorem broadcastFrom_mid_nil (url m b : String) (n : Nat) (f : Nat → ErrorVal)
    (d : Delivery) (entry : LogEntry) :
    ∀ (rem lo : Nat), 1 ≤ rem → lo + rem = n + 1 →
    broadcastFrom d (hashModel url ⟨m, b⟩) lo rem (midSt url m b n [] f d entry lo)
      = retiredSt url m b n d entry := by
  intro rem
  induction rem with
  | zero =>
    intro lo h1 _
    omega
  | succ k ih =>
    intro lo _ h
    rcases Nat.eq_zero_or_pos k with hk | hk
    · subst hk
      have hlo : lo = n := by omega
      rw [hlo]
      simp only [broadcastFrom]
      rw [runHandler_mid_last url m b n f d entry]
    · have hlo : lo < n + 1 := by omega
      have hmax : procCount [] (lo + 1) < n + 1 := by
        rw [procCount_nil]
        omega
      simp only [broadcastFrom]
      rw [runHandler_mid url m b n [] f d entry lo hlo hmax]
      exact ih (lo + 1) hk (by omega)

theorem fetchSettle_dispatched_success (url m b : String) (n : Nat) (P : List Nat)
    (f : Nat → ErrorVal) (r : ResponseVal) :
    fetchSettleStep (dispatchedSt url m b n P f) 0 (.success r)
      = broadcastFrom (.thenD r) (hashModel url ⟨m, b⟩) 0 (n + 1)
          (midSt url m b n P f (.thenD r) (.thenEvent (hashModel url ⟨m, b⟩)) 0) := by
  simp [fetchSettleStep, dispatchedSt, dispatchEventStep, midSt, deliverLog, procCount]

theorem fetchSettle_dispatched_failure (url m b : String) (n : Nat) (P : List Nat)
    (f : Nat → ErrorVal) (e : ErrorVal) (he : ¬ (e.name = "AbortError")) :
    fetchSettleStep (dispatchedSt url m b n P f) 0 (.failure e)
      = broadcastFrom (.catchD e) (hashModel url ⟨m, b⟩) 0 (n + 1)
          (midSt url m b n P f (.catchD e) (.catchEvent (hashModel url ⟨m, b⟩)) 0) := by
  simp [fetchSettleStep, dispatchedSt, dispatchEventStep, midSt, deliverLog, procCount, he]

/-! ## Claim theorems: concrete and single-step claims -/

/-- C6: when the shared transport call settles with a cancellation outcome (an
error named `AbortError`), the dispatcher's failure branch does not emit the
failure event: the only state change is the fetch being marked settled — no
caller is touched, nothing is broadcast, nothing is logged. -/
theorem abort_failure_suppressed (v : Variant) (s : St) (fid : Nat) (fc : FetchCall)
    (batchId : String) (ctl : Nat) (e : ErrorVal)
    (hfc : s.fetches[fid]? = some fc) (hunsettled : fc.settled = false)
    (hmode : fc.mode = .batch batchId ctl) (hname : e.name = "AbortError") :
    step v s (.fetchSettle fid (.failure e))
      = { s with fetches := s.fetches.set fid { fc with settled := true } } := by
  simp [step, fetchSettleStep, hfc, hunsettled, hmode, hname]

theorem abort_failure_suppressed_witness :
    c6St.fetches[0]? = some ⟨"u", some ⟨"GET", ""⟩, none,
      .batch (hashModel "u" ⟨"GET", ""⟩) 0, false⟩ ∧
    step variantA c6St (.fetchSettle 0 (.failure ⟨"AbortError", "esc"⟩))
      = { c6St with fetches := c6St.fetches.set 0 ⟨"u", some ⟨"GET", ""⟩, none,
          .batch (hashModel "u" ⟨"GET", ""⟩) 0, true⟩ } :=
  ⟨by decide,
   abort_failure_suppressed variantA c6St 0
     ⟨"u", some ⟨"GET", ""⟩, none, .batch (hashModel "u" ⟨"GET", ""⟩) 0, false⟩
     (hashModel "u" ⟨"GET", ""⟩) 0 ⟨"AbortError", "esc"⟩
     (by decide) (by decide) (by decide) (by decide)⟩

/-- C10: the abort-signal listener assumes the counter entry still exists.  If
the signal fires while the batch is still registered the handler works, but if
it fires after retirement the `aborted += 1` dereferences a missing entry: the
handler removes the window listeners, then throws a `TypeError`, and the
final `reject` never runs — not a clean no-op, so the handler is safe only
under the precondition that the batch entry still exists. -/
theorem abort_handler_throws_after_retire (v : Variant) (s : St) (i : Nat) (c : Caller)
    (batchId : String) (reason : ErrorVal)
    (hc : s.callers[i]? = some c) (hmode : c.mode = .batched batchId)
    (harmed : c.abortArmed = true) (hmiss : s.requestCounter batchId = none) :
    step v s (.abortFire i reason)
      = { s with
          callers := s.callers.set i
            { c with abortArmed := false, thenAttached := false, catchAttached := false }
          log := s.log ++ [.typeErrorThrown i] } := by
  simp [step, abortFireStep, hc, hmode, harmed, hmiss]

theorem abort_handler_throws_after_retire_witness :
    c10St.callers[0]? = some c10Caller ∧
    c10Caller.mode = .batched (hashModel "u" ⟨"GET", ""⟩) ∧
    c10Caller.abortArmed = true ∧
    c10St.requestCounter (hashModel "u" ⟨"GET", ""⟩) = none ∧
    step variantA c10St (.abortFire 0 ⟨"AbortError", "late"⟩)
      = { c10St with
          callers := c10St.callers.set 0
            { c10Caller with abortArmed := false, thenAttached := false, catchAttached := false }
          log := c10St.log ++ [.typeErrorThrown 0] } :=
  ⟨by decide, by decide, by decide, by decide,
   abort_handler_throws_after_retire variantA c10St 0 c10Caller
     (hashModel "u" ⟨"GET", ""⟩) ⟨"AbortError", "late"⟩
     (by decide) (by decide) (by decide) (by decide)⟩

/-- C5: on a call whose signature already has a dispatched transport call the
two source variants disagree: the first (500ms) variant issues its own
independent `fetch(url, options)` (with the caller's own signal, without
joining the batch), while the second (1000ms) variant throws
`Request already dispatched` from the registration step; hence the variants
are not equivalent. -/
theorem late_join_policies_differ :
    (run variantA c5Trace).fetches.length = 2 ∧
    (run variantA c5Trace).fetches[1]?
      = some ⟨"u", some ⟨"GET", ""⟩, some 5, .directFor 1, false⟩ ∧
    ((run variantA c5Trace).callers[1]?).map Caller.mode = some .direct ∧
    (run variantA c5Trace).requestCounter (hashModel "u" ⟨"GET", ""⟩) = some ⟨1, 0, 0⟩ ∧
    (run variantB c5Trace).fetches.length = 1 ∧
    ((run variantB c5Trace).callers[1]?).map Caller.mode
      = some (.threwSync ⟨"Error", "Request already dispatched"⟩) ∧
    (run variantB c5Trace).requestCounter (hashModel "u" ⟨"GET", ""⟩) = some ⟨1, 0, 0⟩ := by
  decide

/-- C2: falsified on the code.  In a two-caller batch where caller 0 cancels
individually and the fetch then succeeds, the abort path increments only
`aborted` (never `processed`), so neither retirement condition
(`processed == registered` or `aborted == registered`) ever holds: both
callers are settled, yet every registry entry for the signature survives —
the entry leaks. -/
theorem mixed_batch_leaks_registry :
    (run variantA c2Trace).requestCounter (hashModel "u" ⟨"GET", ""⟩) = some ⟨2, 1, 1⟩ ∧
    (run variantA c2Trace).requestPayload (hashModel "u" ⟨"GET", ""⟩)
      = some ⟨"u", ⟨"GET", ""⟩⟩ ∧
    (run variantA c2Trace).requestSignals (hashModel "u" ⟨"GET", ""⟩) = some 0 ∧
    ((run variantA c2Trace).callers[0]?).map Caller.promise
      = some (.rejected ⟨"AbortError", "c0"⟩) ∧
    ((run variantA c2Trace).callers[1]?).map Caller.promise = some (.resolved ⟨"ok"⟩) := by
  decide

/-- C3: in the first variant full cancellation escalates as claimed (both
cancel early: timer cancelled, no fetch, entry retired; both cancel late: the
shared controller is aborted).  In the second variant the abort handler
assigns `aborted = 1` instead of incrementing, so with two callers the
all-cancelled check `1 === 2` never passes: the timer survives and the fetch
is issued in the early case, and the in-flight controller is never aborted in
the late case. -/
theorem full_cancellation_escalation_variants :
    (run variantA c3TraceEarly).fetches = [] ∧
    (run variantA c3TraceEarly).timers[1]? = some ⟨hashModel "u" ⟨"GET", ""⟩, .cancelled⟩ ∧
    (run variantA c3TraceEarly).requestCounter (hashModel "u" ⟨"GET", ""⟩) = none ∧
    (run variantA c3TraceLate).controllers = [true] ∧
    (run variantB c3TraceEarly).fetches.length = 1 ∧
    (run variantB c3TraceEarly).timers[1]? = some ⟨hashModel "u" ⟨"GET", ""⟩, .fired⟩ ∧
    (run variantB c3TraceEarly).requestCounter (hashModel "u" ⟨"GET", ""⟩)
      = some ⟨2, 1, 0⟩ ∧
    (run variantB c3TraceLate).controllers = [false] := by
  decide

/-- C8: falsified on the code.  The success handler removes only its own
`then` listener, so after caller 0's batch succeeds and retires, caller 0's
stale `catch` listener is still attached.  When a later batch for the same
signature fails, caller 0 reacts to that broadcast: it receives a second
delivery (both `resolve` and `reject` were invoked on it), increments the new
batch's `processed` counter to its maximum and unregisters it, whereupon the
new batch's own caller throws a `TypeError` in its handler and is left
forever pending — delivery is not exactly-once per caller. -/
theorem stale_listener_reacts_to_later_broadcast :
    ((run variantA c8Trace).callers[0]?).map Caller.promise = some (.resolved ⟨"ok"⟩) ∧
    (run variantA c8Trace).log.count (.resolveCalled 0) = 1 ∧
    (run variantA c8Trace).log.count (.rejectCalled 0) = 1 ∧
    (run variantA c8Trace).log.count (.processedInc 0) = 2 ∧
    (run variantA c8Trace).log.count (.processedInc 1) = 0 ∧
    ((run variantA c8Trace).callers[1]?).map Caller.promise = some .pending ∧
    ((run variantA c8Trace).callers[1]?).map Caller.catchAttached = some false ∧
    (run variantA c8Trace).log.count (.typeErrorThrown 1) = 1 ∧
    (run variantA c8Trace).requestCounter (hashModel "u" ⟨"GET", ""⟩) = none := by
  decide

/-- C9: the batch signature is computed from the url and the options with the
signal destructured away, so it is a deterministic function that does not
depend on `options.signal`: two calls differing only in their signal get the
same `batchId`, and running both calls joins them into one batch entry with
`registered = 2`. -/
theorem signature_ignores_signal (url m b : String) (s1 s2 : Option Nat) :
    batchIdOf url ⟨m, b, s1⟩ = batchIdOf url ⟨m, b, s2⟩ ∧
    (run variantA [.call url ⟨m, b, s1⟩, .call url ⟨m, b, s2⟩]).requestCounter
      (batchIdOf url ⟨m, b, s1⟩) = some ⟨2, 0, 0⟩ := by
  refine ⟨rfl, ?_⟩
  simp [run, runFrom, step, batchFetchCall, registerRequest, debounceRequest,
    incrementRequestCounter, isRequestCounterMax, stripSignal, batchIdOf,
    initSt, emptyMap, cancelTimer, upd, RequestCounter.incr]

/-- C7: `debounceRequest` clears the pending timer and arms a fresh one for
the full quiet window on every join, so with a join chain in which each
subsequent identical call arrives strictly inside the previous window,
dispatch fires exactly one full window after the last join — no earlier than
one full window after any join in the chain (in particular, a second call
100ms into a 500ms window postpones dispatch to 600ms). -/
theorem debounce_rearm_full_window (w : Nat) (t : Nat) (ts : List Nat)
    (hch : List.Chain' (fun a bb => bb < a + w) (t :: ts))
    (hmono : List.Chain' (· ≤ ·) (t :: ts)) :
    fireTime w (t :: ts) = some ((t :: ts).getLast (List.cons_ne_nil t ts) + w) ∧
    ∀ u ∈ t :: ts, u + w ≤ (t :: ts).getLast (List.cons_ne_nil t ts) + w := by
  induction ts generalizing t with
  | nil => simp [fireTime]
  | cons t2 ts ih =>
    rw [List.chain'_cons] at hch hmono
    have prev := ih t2 hch.2 hmono.2
    have hfire : fireTime w (t :: t2 :: ts) = fireTime w (t2 :: ts) := by
      simp [fireTime, hch.1]
    have hlast : (t :: t2 :: ts).getLast (List.cons_ne_nil t (t2 :: ts))
        = (t2 :: ts).getLast (List.cons_ne_nil t2 ts) := by
      exact List.getLast_cons (List.cons_ne_nil t2 ts)
    refine ⟨by rw [hfire, hlast]; exact prev.1, ?_⟩
    intro u hu
    rw [hlast]
    rcases List.mem_cons.mp hu with h | h
    · have h2 : t2 + w ≤ (t2 :: ts).getLast (List.cons_ne_nil t2 ts) + w :=
        prev.2 t2 (List.mem_cons_self t2 ts)
      have := hmono.1
      omega
    · exact prev.2 u h

theorem debounce_rearm_full_window_witness :
    List.Chain' (fun a bb => bb < a + 500) [0, 100] ∧
    List.Chain' (fun a bb => a ≤ bb) [0, 100] ∧
    (fireTime 500 [0, 100]
        = some (([0, 100] : List Nat).getLast (List.cons_ne_nil 0 [100]) + 500) ∧
      ∀ u ∈ ([0, 100] : List Nat),
        u + 500 ≤ ([0, 100] : List Nat).getLast (List.cons_ne_nil 0 [100]) + 500) :=
  ⟨by norm_num [List.chain'_cons], by norm_num [List.chain'_cons],
   debounce_rearm_full_window 500 0 [100] (by norm_num [List.chain'_cons])
     (by norm_num [List.chain'_cons])⟩

/-- C1: for every group of `n+1` `batchFetch` calls with identical url and
options (up to the per-call cancellation signal) all issued before the
quiet-window timer fires, the transport primitive is invoked exactly once for
that signature (the fetch list is the single batch fetch), and every one of
the `n+1` callers' promises is settled with the outcome of that single
invocation (a clone of the response on success, the error on a non-abort
failure). -/
theorem coalesced_calls_single_fetch (url m b : String) (n : Nat) (out : FetchOutcome)
    (hout : out.isAbort = false) :
    ((run variantA (joinEvents url m b (n + 1)
        ++ [Ev.timerFire n, Ev.fetchSettle 0 out])).fetches
      = [⟨url, some ⟨m, b⟩, none, .batch (hashModel url ⟨m, b⟩) 0, true⟩]) ∧
    ∀ i, i < n + 1 →
      ((run variantA (joinEvents url m b (n + 1)
          ++ [Ev.timerFire n, Ev.fetchSettle 0 out])).callers[i]?).map Caller.promise
        = some (deliveredPromise out) := by
  have hrun : run variantA (joinEvents url m b (n + 1)
        ++ [Ev.timerFire n, Ev.fetchSettle 0 out])
      = fetchSettleStep (dispatchedSt url m b n [] (fun _ => ⟨"", ""⟩)) 0 out := by
    have h1 := run_joinEvents url m b (fun _ => ⟨"", ""⟩) n
    have h2 := step_timer_phase url m b (fun _ => ⟨"", ""⟩) n []
    simp only [run, runFrom] at h1 ⊢
    rw [List.foldl_append, h1, List.foldl_cons, h2, List.foldl_cons, List.foldl_nil]
    rfl
  rw [hrun]
  cases out with
  | success r =>
    rw [fetchSettle_dispatched_success]
    rw [broadcastFrom_mid_nil url m b n (fun _ => ⟨"", ""⟩) (.thenD r)
      (.thenEvent (hashModel url ⟨m, b⟩)) (n + 1) 0 (by omega) (by omega)]
    refine ⟨by simp [retiredSt], ?_⟩
    intro i hi
    simp [retiredSt, range_map_getElem _ _ _ hi, deliveredCaller, deliveredPromise]
  | failure e =>
    have he : ¬ (e.name = "AbortError") := by
      simpa [FetchOutcome.isAbort] using hout
    rw [fetchSettle_dispatched_failure url m b n [] (fun _ => ⟨"", ""⟩) e he]
    rw [broadcastFrom_mid_nil url m b n (fun _ => ⟨"", ""⟩) (.catchD e)
      (.catchEvent (hashModel url ⟨m, b⟩)) (n + 1) 0 (by omega) (by omega)]
    refine ⟨by simp [retiredSt], ?_⟩
    intro i hi
    simp [retiredSt, range_map_getElem _ _ _ hi, deliveredCaller, deliveredPromise]

theorem coalesced_calls_single_fetch_witness :
    (FetchOutcome.success ⟨"ok"⟩).isAbort = false ∧
    ((run variantA (joinEvents "u" "GET" "" 3
        ++ [Ev.timerFire 2, Ev.fetchSettle 0 (.success ⟨"ok"⟩)])).fetches
      = [⟨"u", some ⟨"GET", ""⟩, none, .batch (hashModel "u" ⟨"GET", ""⟩) 0, true⟩]) ∧
    ∀ i, i < 3 →
      ((run variantA (joinEvents "u" "GET" "" 3
          ++ [Ev.timerFire 2, Ev.fetchSettle 0 (.success ⟨"ok"⟩)])).callers[i]?).map
        Caller.promise = some (deliveredPromise (.success ⟨"ok"⟩)) :=
  ⟨by decide, (coalesced_calls_single_fetch "u" "GET" "" 2 (.success ⟨"ok"⟩) (by decide)).1,
   (coalesced_calls_single_fetch "u" "GET" "" 2 (.success ⟨"ok"⟩) (by decide)).2⟩

/-- C4: in a batch of `n+1` joined callers (`n+1 ≥ 2`), when a strict,
nonempty subset `L` of the callers cancels individually, the shared transport
call is not aborted (no controller is ever aborted), the debounce timer is
not cancelled (it fires), every non-cancelling caller still receives the
transport outcome, and each cancelled caller's promise is rejected with its
own cancellation reason only. -/
theorem subset_cancellation_preserves_batch (url m b : String) (n : Nat) (L : List Nat)
    (f : Nat → ErrorVal) (out : FetchOutcome)
    (hnd : L.Nodup) (hbound : ∀ i ∈ L, i < n + 1) (hne : L ≠ [])
    (hlen : L.length ≤ n) (hout : out.isAbort = false) :
    ((run variantA (joinEvents url m b (n + 1) ++ L.map (fun i => Ev.abortFire i (f i))
        ++ [Ev.timerFire n, Ev.fetchSettle 0 out])).controllers = [false]) ∧
    ((run variantA (joinEvents url m b (n + 1) ++ L.map (fun i => Ev.abortFire i (f i))
        ++ [Ev.timerFire n, Ev.fetchSettle 0 out])).fetches
      = [⟨url, some ⟨m, b⟩, none, .batch (hashModel url ⟨m, b⟩) 0, true⟩]) ∧
    ((run variantA (joinEvents url m b (n + 1) ++ L.map (fun i => Ev.abortFire i (f i))
        ++ [Ev.timerFire n, Ev.fetchSettle 0 out])).timers[n]?
      = some ⟨hashModel url ⟨m, b⟩, .fired⟩) ∧
    (∀ i, i < n + 1 → i ∉ L →
      ((run variantA (joinEvents url m b (n + 1) ++ L.map (fun i => Ev.abortFire i (f i))
          ++ [Ev.timerFire n, Ev.fetchSettle 0 out])).callers[i]?).map Caller.promise
        = some (deliveredPromise out)) ∧
    (∀ i ∈ L,
      ((run variantA (joinEvents url m b (n + 1) ++ L.map (fun i => Ev.abortFire i (f i))
          ++ [Ev.timerFire n, Ev.fetchSettle 0 out])).callers[i]?).map Caller.promise
        = some (.rejected (f i))) := by
  obtain ⟨q0, hq0⟩ := List.exists_mem_of_ne_nil L hne
  have hq0n : q0 < n + 1 := hbound q0 hq0
  have hrun : run variantA (joinEvents url m b (n + 1)
        ++ L.map (fun i => Ev.abortFire i (f i))
        ++ [Ev.timerFire n, Ev.fetchSettle 0 out])
      = fetchSettleStep (dispatchedSt url m b n L f) 0 out := by
    have h1 := run_joinEvents url m b f n
    have h2 := run_abort_phase url m b f n L [] (by simpa using hnd) hbound
      (by simpa using hlen)
    have h3 := step_timer_phase url m b f n L
    simp only [runFrom, List.nil_append] at h2
    simp only [run, runFrom] at h1 ⊢
    rw [List.foldl_append, List.foldl_append, h1, h2, List.foldl_cons, h3,
      List.foldl_cons, List.foldl_nil]
    rfl
  rw [hrun]
  cases out with
  | success r =>
    rw [fetchSettle_dispatched_success]
    rw [broadcastFrom_mid url m b n L f (.thenD r)
      (.thenEvent (hashModel url ⟨m, b⟩)) q0 hq0 hq0n (n + 1) 0 (by omega)]
    refine ⟨by simp [midSt], by simp [midSt], by simp [midSt, replicate_concat_getElem], ?_, ?_⟩
    · intro i hi hiL
      simp [midSt, range_map_getElem _ _ _ hi, hiL, hi, deliveredCaller, deliveredPromise]
    · intro i hiL
      have hi : i < n + 1 := hbound i hiL
      simp [midSt, range_map_getElem _ _ _ hi, hiL, abortedCaller]
  | failure e =>
    have he : ¬ (e.name = "AbortError") := by
      simpa [FetchOutcome.isAbort] using hout
    rw [fetchSettle_dispatched_failure url m b n L f e he]
    rw [broadcastFrom_mid url m b n L f (.catchD e)
      (.catchEvent (hashModel url ⟨m, b⟩)) q0 hq0 hq0n (n + 1) 0 (by omega)]
    refine ⟨by simp [midSt], by simp [midSt], by simp [midSt, replicate_concat_getElem], ?_, ?_⟩
    · intro i hi hiL
      simp [midSt, range_map_getElem _ _ _ hi, hiL, hi, deliveredCaller, deliveredPromise]
    · intro i hiL
      have hi : i < n + 1 := hbound i hiL
      simp [midSt, range_map_getElem _ _ _ hi, hiL, abortedCaller]

theorem subset_cancellation_preserves_batch_witness :
    ([0] : List Nat).Nodup ∧ (∀ i ∈ ([0] : List Nat), i < 3) ∧
    ([0] : List Nat) ≠ [] ∧ ([0] : List Nat).length ≤ 2 ∧
    (FetchOutcome.success ⟨"ok"⟩).isAbort = false ∧
    (((run variantA (joinEvents "u" "GET" "" 3
        ++ ([0] : List Nat).map (fun i => Ev.abortFire i ((fun _ => (⟨"AbortError", "own"⟩ : ErrorVal)) i))
        ++ [Ev.timerFire 2, Ev.fetchSettle 0 (.success ⟨"ok"⟩)])).controllers = [false]) ∧
      ((run variantA (joinEvents "u" "GET" "" 3
        ++ ([0] : List Nat).map (fun i => Ev.abortFire i ((fun _ => (⟨"AbortError", "own"⟩ : ErrorVal)) i))
        ++ [Ev.timerFire 2, Ev.fetchSettle 0 (.success ⟨"ok"⟩)])).fetches
        = [⟨"u", some ⟨"GET", ""⟩, none, .batch (hashModel "u" ⟨"GET", ""⟩) 0, true⟩]) ∧
      ((run variantA (joinEvents "u" "GET" "" 3
        ++ ([0] : List Nat).map (fun i => Ev.abortFire i ((fun _ => (⟨"AbortError", "own"⟩ : ErrorVal)) i))
        ++ [Ev.timerFire 2, Ev.fetchSettle 0 (.success ⟨"ok"⟩)])).timers[2]?
        = some ⟨hashModel "u" ⟨"GET", ""⟩, .fired⟩) ∧
      (∀ i, i < 3 → i ∉ ([0] : List Nat) →
        ((run variantA (joinEvents "u" "GET" "" 3
          ++ ([0] : List Nat).map (fun i => Ev.abortFire i ((fun _ => (⟨"AbortError", "own"⟩ : ErrorVal)) i))
          ++ [Ev.timerFire 2, Ev.fetchSettle 0 (.success ⟨"ok"⟩)])).callers[i]?).map
            Caller.promise = some (deliveredPromise (.success ⟨"ok"⟩))) ∧
      (∀ i ∈ ([0] : List Nat),
        ((run variantA (joinEvents "u" "GET" "" 3
          ++ ([0] : List Nat).map (fun i => Ev.abortFire i ((fun _ => (⟨"AbortError", "own"⟩ : ErrorVal)) i))
          ++ [Ev.timerFire 2, Ev.fetchSettle 0 (.success ⟨"ok"⟩)])).callers[i]?).map
            Caller.promise = some (.rejected ((fun _ => (⟨"AbortError", "own"⟩ : ErrorVal)) i)))) :=
  ⟨by decide, by decide, by decide, by decide, by decide,
   subset_cancellation_preserves_batch "u" "GET" "" 2 [0]
     (fun _ => ⟨"AbortError", "own"⟩) (.success ⟨"ok"⟩)
     (by decide) (by decide) (by decide) (by decide) (by decide)⟩

end BatchFetch
